import Mathlib

/-!
Verification of the pyannote-api-toolkit record store and confidence query
subsystem.  The MongoDB `$jsonSchema` validator and the unique `filename`
index are embedded from `src/backend/mongo/init-mongo.js`; the browser-side
form handlers are embedded from the client script.  The server-side query
engine is not part of the sources, so its three read operations are
modelled from the specification (each such definition is marked
`Modelled from the spec:` in its doc comment).

Modelling conventions: BSON `double` values are represented by ℚ (only
order comparisons occur, never rounding), BSON `int` by `Int`, `objectId`
by an opaque `Nat`, and an absent document field by `none`.
-/

/-- Per-segment confidence payload.  Modelled from the spec: the schema only
constrains it to be an object; it is an opaque bag of scalar sub-scores, of
which the turn-level query reads one designated sub-score (returned to the
caller as `speaker_confidence`).  The designated sub-score is modelled as a
named field and the rest of the bag is kept opaque. -/
structure SegmentConfidence where
  speaker_confidence : ℚ
  extra : List (String × ℚ)
deriving DecidableEq

/-- One element of `diarization_result`, from the `items` schema of
`init-mongo.js` (required: `start`, `end`, `speaker`, `confidence`). -/
structure DiarizationSegment where
  start : ℚ
  «end» : ℚ
  speaker : String
  confidence : SegmentConfidence
deriving DecidableEq

/-- The `sample_level_confidences` sub-document of `init-mongo.js`
(required: `score`, `resolution`). -/
structure SampleLevelConfidences where
  score : List Int
  resolution : ℚ
deriving DecidableEq

/-- A document of the `file_infos` collection.  Every property of the
`$jsonSchema` is optional at the type level (`required` is part of the
validator, not of the document shape). -/
structure FileInfos where
  human_score : Option Int
  sample_level_system_score : Option ℚ
  diarization_result : Option (List DiarizationSegment)
  file_id : Option String
  storage_type : Option String
  filename : Option String
  gridfs_id : Option Nat
  job_id : Option String
  nb_speakers : Option Int
  sample_level_confidences : Option SampleLevelConfidences
deriving DecidableEq

/-- Validator for one `diarization_result` item: `start` and `end` are
doubles with `minimum: 0.0`; `speaker` and `confidence` are only
type-constrained (enforced here by the field types). -/
def diarizationSegmentValid (g : DiarizationSegment) : Bool :=
  decide (0 ≤ g.start) && decide (0 ≤ g.«end»)

/-- Validator for `sample_level_confidences`: each `score` item is an int
with `minimum: 0, maximum: 100`; `resolution` is a double with
`minimum: 0.0`. -/
def sampleLevelConfidencesValid (c : SampleLevelConfidences) : Bool :=
  c.score.all (fun s => decide (0 ≤ s) && decide (s ≤ 100)) && decide (0 ≤ c.resolution)

/-- The `$jsonSchema` validator of the `file_infos` collection from
`src/backend/mongo/init-mongo.js`: `storage_type`, `filename`, `gridfs_id`
and `nb_speakers` are required; present fields must satisfy their range and
enum constraints (`human_score` int in [0,100], `sample_level_system_score`
double in [0,100], `storage_type` in the enum `["PyAnnote"]`, `nb_speakers`
int in [1,100], plus the two sub-validators above). -/
def fileInfosValid (r : FileInfos) : Bool :=
  r.storage_type.isSome && r.filename.isSome && r.gridfs_id.isSome && r.nb_speakers.isSome
  && (r.human_score.all fun h => decide (0 ≤ h) && decide (h ≤ 100))
  && (r.sample_level_system_score.all fun s => decide (0 ≤ s) && decide (s ≤ 100))
  && (r.diarization_result.all fun segs => segs.all diarizationSegmentValid)
  && (r.storage_type.all fun t => t == "PyAnnote")
  && (r.nb_speakers.all fun n => decide (1 ≤ n) && decide (n ≤ 100))
  && (r.sample_level_confidences.all sampleLevelConfidencesValid)

/-- Write-time failure taxonomy of the store (spec §7): schema violations
surface as `validationError`, filename collisions as `duplicateKey`. -/
inductive WriteError where
  | validationError
  | duplicateKey
deriving DecidableEq

/-- Modelled from the spec: document-store insert (the store engine itself
is an external collaborator, spec §6).  The write is validated by the
embedded `$jsonSchema`; the unique index on `filename` declared in
`init-mongo.js` rejects a second record with an already-registered
filename (`DuplicateKey`, spec §4.4/§7). -/
def insertRecord (store : List FileInfos) (r : FileInfos) : Except WriteError (List FileInfos) :=
  if fileInfosValid r then
    if store.any (fun x => decide (x.filename = r.filename)) then
      .error .duplicateKey
    else
      .ok (store ++ [r])
  else .error .validationError

/-- A record as created at upload time: identity, storage and speaker-count
fields only (spec §3 lifecycle); `storage_type` is the single enum value. -/
def creationRecord (fn : String) (gid : Nat) (nb : Option Int) : FileInfos :=
  ⟨none, none, none, none, some "PyAnnote", some fn, some gid, none, nb, none⟩

/-- A record after diarization-result attachment: the creation fields plus
`diarization_result`. -/
def diarizedRecord (fn : String) (gid : Nat) (nb : Int)
    (segs : List DiarizationSegment) : FileInfos :=
  ⟨none, none, some segs, none, some "PyAnnote", some fn, some gid, none, some nb, none⟩

/-- Read-time failure taxonomy of the query engine (spec §7): a window
query against a nonexistent filename fails with `notFound`. -/
inductive QueryError where
  | notFound
deriving DecidableEq

/-- Result row of the mean-score range query, projected as
`{filename, human_score, system_score}` (the columns the caller reads). -/
structure MeanScoreRow where
  filename : String
  human_score : Int
  system_score : ℚ
deriving DecidableEq

/-- Modelled from the spec: the row the mean-score query produces for one
record — `some` row when `human_score` and `sample_level_system_score` are
both present and each lies in its inclusive interval, `none` otherwise. -/
def meanRowOf (h0 h1 : Int) (s0 s1 : ℚ) (r : FileInfos) : Option MeanScoreRow :=
  match r.filename, r.human_score, r.sample_level_system_score with
  | some fn, some h, some s =>
      if h0 ≤ h ∧ h ≤ h1 ∧ s0 ≤ s ∧ s ≤ s1 then some ⟨fn, h, s⟩ else none
  | _, _, _ => none

/-- Modelled from the spec: the mean-score range query of the query engine
(spec §4.3.1; the server implementing `/get_filenames_by_mean_scores` is
not among the sources, only its browser-side caller is).  Returns the
records whose `human_score` lies in `[h0, h1]` and whose
`sample_level_system_score` lies in `[s0, s1]`, both bounds inclusive,
projected to `{filename, human_score, system_score}`. -/
def getFilenamesByMeanScores (store : List FileInfos) (h0 h1 : Int) (s0 s1 : ℚ) :
    List MeanScoreRow :=
  store.filterMap (meanRowOf h0 h1 s0 s1)

/-- Result row of the sample-level window query, projected as
`{confidence, start, end}` (the columns the caller reads). -/
structure SampleWindowRow where
  confidence : Int
  start : ℚ
  «end» : ℚ
deriving DecidableEq

/-- Modelled from the spec: the per-index scan of the sample-level window
query.  Sample `i` (the original index in `scores`, counted from `i0`) is
retained when its score lies in `[mn, mx]`; its time bounds are
reconstructed from the fixed resolution as `start = i * resolution` and
`end = (i + 1) * resolution` (spec §4.3.2). -/
def sampleWindowRows (i0 : Nat) (res : ℚ) (mn mx : Int) :
    List Int → List SampleWindowRow
  | [] => []
  | s :: rest =>
      if mn ≤ s ∧ s ≤ mx then
        ⟨s, (i0 : ℚ) * res, ((i0 : ℚ) + 1) * res⟩ :: sampleWindowRows (i0 + 1) res mn mx rest
      else sampleWindowRows (i0 + 1) res mn mx rest

/-- Modelled from the spec: the sample-level confidence window query of the
query engine (spec §4.3.2; the server implementing
`/get_sample_level_confidences_by_filename` is not among the sources).
Resolves the one record for `fn` (`notFound` if absent) and filters its
`sample_level_confidences.score` sequence, reconstructing time bounds from
`resolution`; a record without sample-level confidences yields no rows. -/
def getSampleLevelConfidencesByFilename (store : List FileInfos) (fn : String)
    (mn mx : Int) : Except QueryError (List SampleWindowRow) :=
  match store.find? (fun r => decide (r.filename = some fn)) with
  | none => .error .notFound
  | some r =>
      match r.sample_level_confidences with
      | none => .ok []
      | some c => .ok (sampleWindowRows 0 c.resolution mn mx c.score)

/-- Result row of the turn-level window query, projected as
`{start, end, speaker, speaker_confidence}` (the columns the caller
reads). -/
structure TurnWindowRow where
  start : ℚ
  «end» : ℚ
  speaker : String
  speaker_confidence : ℚ
deriving DecidableEq

/-- Modelled from the spec: the turn-level confidence window query of the
query engine (spec §4.3.3; the server implementing
`/get_turn_level_confidences_by_filename` is not among the sources).
Resolves the record, then filters `diarization_result` to the segments
whose confidence sub-score lies in `[mn, mx]`, preserving the stored
segment ordering; a record without segments yields no rows. -/
def getTurnLevelConfidencesByFilename (store : List FileInfos) (fn : String)
    (mn mx : ℚ) : Except QueryError (List TurnWindowRow) :=
  match store.find? (fun r => decide (r.filename = some fn)) with
  | none => .error .notFound
  | some r =>
      .ok ((r.diarization_result.getD []).filterMap fun g =>
        if mn ≤ g.confidence.speaker_confidence ∧ g.confidence.speaker_confidence ≤ mx then
          some ⟨g.start, g.«end», g.speaker, g.confidence.speaker_confidence⟩
        else none)

/-- The seven cached filename dropdown lists of the client script
(`listIds`). -/
def listIds : List String :=
  ["filenameLists", "filenameSVG", "filenameDiarisation", "filenameListening",
   "filenameDeletion", "filenameSample", "filenameTurn"]

/-- A thrown JavaScript exception, as observable by a surrounding
try/catch. -/
inductive JsException where
  | referenceError
deriving DecidableEq

/-- Embedding of `deleteOptionByValue(listId, valeur)` from the client
script, acting on the option values of one dropdown list.  The loop removes
the first option whose value equals `valeur`; both `console.log` template
literals then interpolate the undefined identifier `value` (the parameter
is named `valeur`), so every call ends by throwing a `ReferenceError` — on
the found path after the removal has already taken effect, on the not-found
path after the scan.  The result pairs the list as left in the DOM with the
exception that escapes the call. -/
def deleteOptionByValue : List String → String → List String × Option JsException
  | [], _ => ([], some .referenceError)
  | o :: rest, valeur =>
      if o = valeur then (rest, some .referenceError)
      else
        let r := deleteOptionByValue rest valeur
        (o :: r.1, r.2)

/-- Embedding of `cleanData(valeur)` from the client script, acting on the
option values of the dropdown lists in `listIds` order.  The `for` loop
over the lists runs inside a single try/catch, so the first exception
escaping `deleteOptionByValue` is caught and the remaining lists are never
processed. -/
def cleanData : List (List String) → String → List (List String)
  | [], _ => []
  | l :: ls, valeur =>
      match deleteOptionByValue l valeur with
      | (l', some _) => l' :: ls
      | (l', none) => l' :: cleanData ls valeur

/-- JavaScript `String.prototype.toLowerCase`, modelled on the character
sequence of the string. -/
def toLowerStr (s : String) : String := String.mk (s.data.map Char.toLower)

/-- JavaScript `String.prototype.endsWith`, modelled on the character
sequence of the string. -/
def endsWithStr (s suffix : String) : Bool := suffix.data.isSuffixOf s.data

/-- JavaScript `String.prototype.trim`, modelled on the character sequence
of the string: leading and trailing whitespace removed. -/
def trimStr (s : String) : String :=
  String.mk (((s.data.dropWhile Char.isWhitespace).reverse.dropWhile Char.isWhitespace).reverse)

/-- Parameters of the GET request issued by the mean-score form handler. -/
structure MeanQueryRequest where
  human_score_min : Int
  human_score_max : Int
  sample_score_min : Int
  sample_score_max : Int
deriving DecidableEq

/-- Parameters of the GET request issued by either window-query form
handler. -/
structure WindowQueryRequest where
  min_score : Int
  max_score : Int
  filename : String
deriving DecidableEq

/-- Embedding of the `selectMeanForm` submit handler: the request it issues
to `/get_filenames_by_mean_scores` (`none` when the handler returns before
the fetch).  Each bound pair is checked with `min >= max` before the
request is built. -/
def selectMeanFormSubmit (minValueHuman maxValueHuman minValueSample maxValueSample : Int) :
    Option MeanQueryRequest :=
  if minValueHuman ≥ maxValueHuman then none
  else if minValueSample ≥ maxValueSample then none
  else some ⟨minValueHuman, maxValueHuman, minValueSample, maxValueSample⟩

/-- Embedding of the `selectSampleLevelForm` submit handler: the request it
issues to `/get_sample_level_confidences_by_filename` (`none` when the
handler returns before the fetch). -/
def selectSampleLevelFormSubmit (minValueFrame maxValueFrame : Int) (filenameValue : String) :
    Option WindowQueryRequest :=
  if minValueFrame ≥ maxValueFrame then none
  else if trimStr filenameValue = "" then none
  else some ⟨minValueFrame, maxValueFrame, trimStr filenameValue⟩

/-- Embedding of the `selectTurnLevelForm` submit handler: the request it
issues to `/get_turn_level_confidences_by_filename` (`none` when the
handler returns before the fetch). -/
def selectTurnLevelFormSubmit (minValueTurn maxValueTurn : Int) (filenameValue : String) :
    Option WindowQueryRequest :=
  if minValueTurn ≥ maxValueTurn then none
  else if trimStr filenameValue = "" then none
  else some ⟨minValueTurn, maxValueTurn, trimStr filenameValue⟩

/-- The file selected in the upload form input: its name and MIME type. -/
structure AudioFile where
  name : String
  type : String
deriving DecidableEq

/-- The form data posted to `/upload` by the upload handler. -/
structure UploadRequest where
  filename : String
  storage_type : String
  file_id : String
  content_type : String
  nb_speakers : String
deriving DecidableEq

/-- Observable outcome of one upload form submission: the request posted to
`/upload` (`none` when the handler returns before the fetch) and whether
`resetFileInputFields` ran. -/
structure UploadOutcome where
  request : Option UploadRequest
  inputFieldsReset : Bool
deriving DecidableEq

/-- Embedding of the `uploadForm` submit handler, in source order: empty
speaker count → return; no file → return; the wav verification (MIME must
be `audio/wav` or `audio/x-wav` AND the lowercased name must end in
`.wav`) → reset fields and return on failure; empty trimmed filename →
return; empty storage type → return; otherwise the request is posted and
the fields are reset afterwards. -/
def uploadFormSubmit (nbSpeakers : String) (audioFile : Option AudioFile)
    (filenameValue storageType : String) (numberOfDocuments : Nat) : UploadOutcome :=
  if nbSpeakers = "" then ⟨none, false⟩
  else
    match audioFile with
    | none => ⟨none, false⟩
    | some f =>
        let contentType := f.type
        let mimeOk := contentType == "audio/wav" || contentType == "audio/x-wav"
        let extensionOk := endsWithStr (toLowerStr f.name) ".wav"
        if !mimeOk || !extensionOk then ⟨none, true⟩
        else if trimStr filenameValue = "" then ⟨none, false⟩
        else if storageType = "" then ⟨none, false⟩
        else
          ⟨some ⟨trimStr filenameValue, storageType,
                 "file-" ++ toString (numberOfDocuments + 1), contentType, nbSpeakers⟩,
           true⟩

/-- A validated record with mean scores present, used to exercise the
mean-score query. -/
def meanDemoRecord : FileInfos :=
  ⟨some 50, some 60, none, none, some "PyAnnote", some "audio0", some 1, none, some 3, none⟩

/-- A validated record carrying the sample-level confidences of the spec's
worked example: `resolution = 0.5`, `scores = [10, 90, 50]`. -/
def sampleDemoRecord : FileInfos :=
  ⟨none, none, none, none, some "PyAnnote", some "audio1", some 2, none, some 2,
   some ⟨[10, 90, 50], 1/2⟩⟩

/-- Two stored diarization segments with turn-level sub-scores 30 and 80. -/
def turnDemoSegs : List DiarizationSegment :=
  [⟨0, 1, "SPEAKER_00", ⟨30, []⟩⟩, ⟨1, 2, "SPEAKER_01", ⟨80, []⟩⟩]

/-- A validated record carrying `turnDemoSegs`, used to exercise the
turn-level query. -/
def turnDemoRecord : FileInfos :=
  ⟨none, none, some turnDemoSegs, none, some "PyAnnote", some "audio2", some 3, none, some 2, none⟩

/-- A record whose `sample_level_confidences.resolution` is exactly `0`. -/
def resolutionZeroRecord : FileInfos :=
  ⟨none, none, none, none, some "PyAnnote", some "silent", some 4, none, some 2,
   some ⟨[50], 0⟩⟩

/-- Helper: a `filterMap` whose function is an if-then-some-else-none is the
projection of a `filter`. -/
theorem filterMap_if_eq_map_filter {α β : Type} (p : α → Prop) [DecidablePred p]
    (f : α → β) (l : List α) :
    (l.filterMap fun a => if p a then some (f a) else none)
      = (l.filter fun a => decide (p a)).map f := by
  induction l with
  | nil => rfl
  | cons a l ih =>
      by_cases h : p a <;> simp [List.filterMap_cons, List.filter_cons, h, ih]

/-- Claim C5: for every integer `nb_speakers` in the inclusive range
[1,100], record creation with that speaker count passes schema validation
and succeeds; for every value outside [1,100], and for a creation that
omits `nb_speakers` entirely, the write is rejected with a
`ValidationError`. -/
theorem nb_speakers_schema_gate (fn : String) (gid : Nat) (n : Int) :
    ((1 ≤ n ∧ n ≤ 100) →
      insertRecord [] (creationRecord fn gid (some n))
        = .ok [creationRecord fn gid (some n)])
  ∧ (¬(1 ≤ n ∧ n ≤ 100) →
      insertRecord [] (creationRecord fn gid (some n)) = .error .validationError)
  ∧ insertRecord [] (creationRecord fn gid none) = .error .validationError := by
  refine ⟨fun h => ?_, fun h => ?_, ?_⟩
  · simp [insertRecord, creationRecord, fileInfosValid, h.1, h.2]
  · rw [Decidable.not_and_iff_or_not] at h
    rcases h with h | h <;> simp [insertRecord, creationRecord, fileInfosValid, h]
  · simp [insertRecord, creationRecord, fileInfosValid]

/-- Witness for C5: speaker count 50 is accepted, 0 and an omitted count
are rejected. -/
theorem nb_speakers_schema_gate_witness :
    (insertRecord [] (creationRecord "rec" 7 (some 50))
        = .ok [creationRecord "rec" 7 (some 50)])
  ∧ insertRecord [] (creationRecord "rec" 7 (some 0)) = .error .validationError
  ∧ insertRecord [] (creationRecord "rec" 7 none) = .error .validationError :=
  ⟨(nb_speakers_schema_gate "rec" 7 50).1 (by decide),
   (nb_speakers_schema_gate "rec" 7 0).2.1 (by decide),
   (nb_speakers_schema_gate "rec" 7 0).2.2⟩

/-- Claim C6: for every pair of record creations with the same filename,
the second insert always fails with `DuplicateKey` while the first
succeeds; `filename` is enforced unique across all records at the storage
layer (the unique index of `init-mongo.js`). -/
theorem filename_duplicate_key (store : List FileInfos) (r1 r2 : FileInfos)
    (hv1 : fileInfosValid r1 = true) (hv2 : fileInfosValid r2 = true)
    (hfn : r2.filename = r1.filename)
    (hnew : ∀ x ∈ store, x.filename ≠ r1.filename) :
    insertRecord store r1 = .ok (store ++ [r1])
  ∧ insertRecord (store ++ [r1]) r2 = .error .duplicateKey := by
  constructor
  · have hany : store.any (fun x => decide (x.filename = r1.filename)) = false := by
      simp only [List.any_eq_false, decide_eq_true_eq]
      exact hnew
    simp [insertRecord, hv1, hany]
  · have hany : (store ++ [r1]).any (fun x => decide (x.filename = r2.filename)) = true := by
      simp only [List.any_eq_true, decide_eq_true_eq]
      exact ⟨r1, by simp, hfn.symm⟩
    simp [insertRecord, hv2, hany]

/-- Witness for C6: two creations named `dup` — the first is accepted, the
second is rejected with `duplicateKey`. -/
theorem filename_duplicate_key_witness :
    insertRecord [] (creationRecord "dup" 1 (some 2))
      = .ok [creationRecord "dup" 1 (some 2)]
  ∧ insertRecord [creationRecord "dup" 1 (some 2)] (creationRecord "dup" 2 (some 3))
      = .error .duplicateKey := by
  have h := filename_duplicate_key [] (creationRecord "dup" 1 (some 2))
    (creationRecord "dup" 2 (some 3)) (by decide) (by decide) rfl (by simp)
  simpa using h

/-- Claim C7: for every diarization segment with `start ≥ 0` and `end ≥ 0`,
schema validation accepts the segment even when `end ≤ start`: the schema
enforces only the non-negativity of `start` and `end` (the validity of a
segment is exactly that conjunction) and never the ordering `end > start`;
a full record carrying such a segment passes `fileInfosValid`. -/
theorem segment_schema_ignores_ordering :
    (∀ g : DiarizationSegment,
      diarizationSegmentValid g = true ↔ 0 ≤ g.start ∧ 0 ≤ g.«end»)
  ∧ (∀ (fn : String) (gid : Nat) (g : DiarizationSegment),
      0 ≤ g.start → 0 ≤ g.«end» →
      fileInfosValid (diarizedRecord fn gid 2 [g]) = true) := by
  constructor
  · intro g
    simp [diarizationSegmentValid]
  · intro fn gid g h1 h2
    simp [fileInfosValid, diarizedRecord, diarizationSegmentValid, h1, h2]

/-- Witness for C7: a segment with `start = 5` and `end = 1` (interval
reversed, `end ≤ start`) is accepted by the schema. -/
theorem segment_schema_ignores_ordering_witness :
    fileInfosValid (diarizedRecord "rev" 1 2 [⟨5, 1, "SPEAKER_00", ⟨0, []⟩⟩]) = true :=
  segment_schema_ignores_ordering.2 "rev" 1 ⟨5, 1, "SPEAKER_00", ⟨0, []⟩⟩
    (by norm_num) (by norm_num)

/-- Claim C8, corrected part: every record that passes schema validation
and has `sample_level_confidences` present has a non-negative (not
necessarily positive) `resolution` and all `score` elements in the
inclusive range [0,100]. -/
theorem validated_sample_level_bounds (r : FileInfos) (c : SampleLevelConfidences)
    (hv : fileInfosValid r = true) (hc : r.sample_level_confidences = some c) :
    0 ≤ c.resolution ∧ ∀ s ∈ c.score, 0 ≤ s ∧ s ≤ 100 := by
  have hslc : sampleLevelConfidencesValid c = true := by
    simp only [fileInfosValid, Bool.and_eq_true] at hv
    have h10 := hv.2
    rw [hc] at h10
    simpa using h10
  simp only [sampleLevelConfidencesValid, Bool.and_eq_true, List.all_eq_true,
    decide_eq_true_eq] at hslc
  exact ⟨hslc.2, fun s hs => hslc.1 s hs⟩

/-- Witness for C8's amended theorem, instantiated at
`resolutionZeroRecord`. -/
theorem validated_sample_level_bounds_witness :
    0 ≤ (⟨[50], 0⟩ : SampleLevelConfidences).resolution
  ∧ ∀ s ∈ (⟨[50], 0⟩ : SampleLevelConfidences).score, 0 ≤ s ∧ s ≤ 100 :=
  validated_sample_level_bounds resolutionZeroRecord ⟨[50], 0⟩ (by decide) rfl

/-- Counterexample for C8 as stated: `resolutionZeroRecord` passes schema
validation although its `sample_level_confidences.resolution` is exactly
`0`, because the schema only constrains `resolution` with `minimum: 0.0`
(inclusive), not a strict lower bound — `resolution` need not be strictly
positive. -/
theorem resolution_zero_passes_validation :
    fileInfosValid resolutionZeroRecord = true
  ∧ resolutionZeroRecord.sample_level_confidences.map SampleLevelConfidences.resolution
      = some 0 :=
  ⟨by decide, rfl⟩

/-- Claim C9: for every submission of any of the three range-query forms in
which a lower bound is greater than or equal to its paired upper bound, the
handler performs the `min >= max` boundary check before the request is
issued and sends no request to the query engine (the built request is
`none`). -/
theorem boundary_check_blocks_request :
    (∀ mh xh ms xs : Int, mh ≥ xh → selectMeanFormSubmit mh xh ms xs = none)
  ∧ (∀ mh xh ms xs : Int, ms ≥ xs → selectMeanFormSubmit mh xh ms xs = none)
  ∧ (∀ (mn mx : Int) (fn : String), mn ≥ mx → selectSampleLevelFormSubmit mn mx fn = none)
  ∧ (∀ (mn mx : Int) (fn : String), mn ≥ mx → selectTurnLevelFormSubmit mn mx fn = none) := by
  refine ⟨fun mh xh ms xs h => ?_, fun mh xh ms xs h => ?_,
          fun mn mx fn h => ?_, fun mn mx fn h => ?_⟩
  · simp [selectMeanFormSubmit, h]
  · rcases le_or_lt xh mh with h' | h'
    · simp [selectMeanFormSubmit, h']
    · simp [selectMeanFormSubmit, not_le.mpr h', h]
  · simp [selectSampleLevelFormSubmit, h]
  · simp [selectTurnLevelFormSubmit, h]

/-- Witness for C9: sliders set to lower bound 70 and upper bound 30 issue
no request on any of the three forms. -/
theorem boundary_check_blocks_request_witness :
    selectMeanFormSubmit 70 30 0 100 = none
  ∧ selectMeanFormSubmit 0 100 70 30 = none
  ∧ selectSampleLevelFormSubmit 70 30 "audio1" = none
  ∧ selectTurnLevelFormSubmit 70 30 "audio2" = none :=
  ⟨boundary_check_blocks_request.1 70 30 0 100 (by decide),
   boundary_check_blocks_request.2.1 0 100 70 30 (by decide),
   boundary_check_blocks_request.2.2.1 70 30 "audio1" (by decide),
   boundary_check_blocks_request.2.2.2 70 30 "audio2" (by decide)⟩

/-- Claim C10, corrected part: an upload request is issued only when the
selected file's name ends in `.wav` case-insensitively and its MIME type is
`audio/wav` or `audio/x-wav`; and for every submission that provides a
speaker count, if the selected file fails the wav check the handler resets
the input fields and sends no request. -/
theorem upload_wav_gate (nb : String) (f : AudioFile) (fnv st : String) (nd : Nat) :
    (∀ req, (uploadFormSubmit nb (some f) fnv st nd).request = some req →
      (f.type = "audio/wav" ∨ f.type = "audio/x-wav")
      ∧ endsWithStr (toLowerStr f.name) ".wav" = true)
  ∧ (nb ≠ "" →
      ((f.type == "audio/wav" || f.type == "audio/x-wav")
          && endsWithStr (toLowerStr f.name) ".wav") = false →
      uploadFormSubmit nb (some f) fnv st nd = ⟨none, true⟩) := by
  constructor
  · intro req hreq
    by_cases hnb : nb = ""
    · simp [uploadFormSubmit, hnb] at hreq
    · cases hb1 : (f.type == "audio/wav" || f.type == "audio/x-wav") with
      | false => simp [uploadFormSubmit, hnb, hb1] at hreq
      | true =>
          cases hb2 : endsWithStr (toLowerStr f.name) ".wav" with
          | false => simp [uploadFormSubmit, hnb, hb1, hb2] at hreq
          | true =>
              refine ⟨?_, rfl⟩
              simpa only [Bool.or_eq_true, beq_iff_eq] using hb1
  · intro hnb hwav
    rcases Bool.and_eq_false_iff.mp hwav with h | h
    · simp [uploadFormSubmit, hnb, h]
    · cases hb1 : (f.type == "audio/wav" || f.type == "audio/x-wav") <;>
        simp [uploadFormSubmit, hnb, hb1, h]

/-- Witness for C10's amended theorem: a `.txt` file with a speaker count
present makes the handler reset the fields and send nothing. -/
theorem upload_wav_gate_witness :
    uploadFormSubmit "2" (some ⟨"notes.txt", "text/plain"⟩) "notes" "PyAnnote" 0
      = ⟨none, true⟩ :=
  (upload_wav_gate "2" ⟨"notes.txt", "text/plain"⟩ "notes" "PyAnnote" 0).2
    (by decide) (by decide)

/-- Counterexample for C10 as stated: a submission with an empty speaker
count and a non-wav file sends no request but also does not reset the input
fields — the handler returns at the speaker-count check before the wav
verification is reached, so "for any other file the handler resets the
input fields" fails as a universal statement over submissions. -/
theorem upload_no_reset_without_speaker_count :
    uploadFormSubmit "" (some ⟨"notes.txt", "text/plain"⟩) "notes" "PyAnnote" 0
      = ⟨none, false⟩
  ∧ endsWithStr (toLowerStr "notes.txt") ".wav" = false := by
  exact ⟨by decide, by decide⟩

/-- Claim C4 (code bug): every call to `deleteOptionByValue` ends in a
`ReferenceError` (its log statements interpolate the undefined identifier
`value`; the parameter is `valeur`), so `cleanData`'s try/catch stops the
loop over the seven `listIds` after the first list.  Deleting a filename
present in all seven cached dropdown lists removes it from the first list
only — not from every list as the claim (and the function's own doc
comment, "removing a filename from all dropdown lists") requires. -/
theorem cleanData_stops_after_first_list :
    (∀ (opts : List String) (valeur : String),
      (deleteOptionByValue opts valeur).2 = some JsException.referenceError)
  ∧ cleanData [["rec"], ["rec"], ["rec"], ["rec"], ["rec"], ["rec"], ["rec"]] "rec"
      = [[], ["rec"], ["rec"], ["rec"], ["rec"], ["rec"], ["rec"]]
  ∧ listIds.length = 7 := by
  refine ⟨fun opts valeur => ?_, by decide, by decide⟩
  induction opts with
  | nil => rfl
  | cons o rest ih =>
      by_cases h : o = valeur <;> simp [deleteOptionByValue, h, ih]

/-- Helper: characterization of the row produced for one record by the
mean-score query. -/
theorem meanRowOf_eq_some (h0 h1 : Int) (s0 s1 : ℚ) (r : FileInfos) (row : MeanScoreRow) :
    meanRowOf h0 h1 s0 s1 r = some row ↔
      r.filename = some row.filename
      ∧ r.human_score = some row.human_score
      ∧ r.sample_level_system_score = some row.system_score
      ∧ h0 ≤ row.human_score ∧ row.human_score ≤ h1
      ∧ s0 ≤ row.system_score ∧ row.system_score ≤ s1 := by
  obtain ⟨rf, rh, rs⟩ := row
  cases hfn : r.filename with
  | none => simp [meanRowOf, hfn]
  | some fn =>
      cases hh : r.human_score with
      | none => simp [meanRowOf, hfn, hh]
      | some h =>
          cases hs : r.sample_level_system_score with
          | none => simp [meanRowOf, hfn, hh, hs]
          | some s =>
              by_cases hcond : h0 ≤ h ∧ h ≤ h1 ∧ s0 ≤ s ∧ s ≤ s1
              · simp only [meanRowOf, hfn, hh, hs, if_pos hcond,
                  Option.some.injEq, MeanScoreRow.mk.injEq]
                constructor
                · rintro ⟨rfl, rfl, rfl⟩
                  exact ⟨rfl, rfl, rfl, hcond.1, hcond.2.1, hcond.2.2.1, hcond.2.2.2⟩
                · rintro ⟨rfl, rfl, rfl, -, -, -, -⟩
                  exact ⟨rfl, rfl, rfl⟩
              · simp only [meanRowOf, hfn, hh, hs, if_neg hcond, Option.some.injEq]
                constructor
                · intro hfalse
                  exact Option.noConfusion hfalse
                · rintro ⟨-, rfl, rfl, hb1, hb2, hb3, hb4⟩
                  exact absurd ⟨hb1, hb2, hb3, hb4⟩ hcond

/-- Claim C1: for bounds `h0 ≤ h1`, `s0 ≤ s1` and any store, the mean-score
range query returns exactly those records whose `human_score` lies in
`[h0,h1]` and whose `sample_level_system_score` lies in `[s0,s1]`, both
intervals inclusive and conjoined (conjuncts 1 and 2); a record in which
`human_score` is absent is never returned, whatever the bounds
(conjunct 3, under the invariant that filenames are pairwise distinct). -/
theorem mean_score_query_exact (store : List FileInfos) (h0 h1 : Int) (s0 s1 : ℚ)
    (_hbh : h0 ≤ h1) (_hbs : s0 ≤ s1)
    (huniq : store.Pairwise fun a b => a.filename ≠ b.filename) :
    (∀ row ∈ getFilenamesByMeanScores store h0 h1 s0 s1,
      ∃ r ∈ store, r.filename = some row.filename
        ∧ r.human_score = some row.human_score
        ∧ r.sample_level_system_score = some row.system_score
        ∧ h0 ≤ row.human_score ∧ row.human_score ≤ h1
        ∧ s0 ≤ row.system_score ∧ row.system_score ≤ s1)
  ∧ (∀ r ∈ store, ∀ fn h s, r.filename = some fn → r.human_score = some h →
      r.sample_level_system_score = some s →
      h0 ≤ h → h ≤ h1 → s0 ≤ s → s ≤ s1 →
      (⟨fn, h, s⟩ : MeanScoreRow) ∈ getFilenamesByMeanScores store h0 h1 s0 s1)
  ∧ (∀ r ∈ store, r.human_score = none →
      ∀ row ∈ getFilenamesByMeanScores store h0 h1 s0 s1,
        some row.filename ≠ r.filename) := by
  refine ⟨?_, ?_, ?_⟩
  · intro row hrow
    rw [getFilenamesByMeanScores, List.mem_filterMap] at hrow
    obtain ⟨r, hr, hf⟩ := hrow
    rw [meanRowOf_eq_some] at hf
    exact ⟨r, hr, hf⟩
  · intro r hr fn h s hfn hh hs hb1 hb2 hb3 hb4
    rw [getFilenamesByMeanScores, List.mem_filterMap]
    exact ⟨r, hr, (meanRowOf_eq_some h0 h1 s0 s1 r ⟨fn, h, s⟩).mpr
      ⟨hfn, hh, hs, hb1, hb2, hb3, hb4⟩⟩
  · intro r hr hnone row hrow hEq
    rw [getFilenamesByMeanScores, List.mem_filterMap] at hrow
    obtain ⟨r', hr', hf⟩ := hrow
    rw [meanRowOf_eq_some] at hf
    have hne : r ≠ r' := by
      intro hrr
      rw [hrr, hf.2.1] at hnone
      exact Option.some_ne_none _ hnone
    have hsymm : Symmetric fun a b : FileInfos => a.filename ≠ b.filename :=
      fun _ _ hab => fun hba => hab hba.symm
    have hdiff := huniq.forall hsymm hr hr' hne
    exact hdiff (hEq.symm.trans hf.1.symm)

/-- Witness for C1: on a store holding `meanDemoRecord` (human score 50,
mean score 60) the query with bounds `[0,100]×[0,100]` returns the
projected row. -/
theorem mean_score_query_exact_witness :
    (⟨"audio0", 50, 60⟩ : MeanScoreRow)
      ∈ getFilenamesByMeanScores [meanDemoRecord] 0 100 0 100 :=
  (mean_score_query_exact [meanDemoRecord] 0 100 0 100 (by decide) (by norm_num)
      (by simp)).2.1
    meanDemoRecord (by simp) "audio0" 50 60 rfl rfl rfl
    (by decide) (by decide) (by norm_num) (by norm_num)

/-- Helper: the per-index scan of the sample-level query equals the
enumerate-filter-project pipeline with indices counted from `i0`. -/
theorem sampleWindowRows_eq_enumFrom (res : ℚ) (mn mx : Int) (l : List Int) :
    ∀ i0 : Nat, sampleWindowRows i0 res mn mx l
      = ((l.enumFrom i0).filter fun p => decide (mn ≤ p.2) && decide (p.2 ≤ mx)).map
          fun p => ⟨p.2, (p.1 : ℚ) * res, ((p.1 : ℚ) + 1) * res⟩ := by
  induction l with
  | nil => intro i0; rfl
  | cons s rest ih =>
      intro i0
      by_cases h : mn ≤ s ∧ s ≤ mx
      · simp [sampleWindowRows, List.enumFrom, List.filter_cons, h, h.1, h.2, ih (i0 + 1)]
      · rw [Decidable.not_and_iff_or_not] at h
        rcases h with h | h <;>
          simp [sampleWindowRows, List.enumFrom, List.filter_cons, h, ih (i0 + 1)]

/-- Claim C2: for every record whose `sample_level_confidences` is present
with scores `c.score` and resolution `c.resolution`, and bounds
`mn ≤ mx`, the sample-level window query returns, in index order, one
`{confidence, start, end}` row for exactly each index `i` with
`mn ≤ score i ≤ mx`, where `start = i * resolution` and
`end = (i+1) * resolution` (first conjunct); in particular with resolution
`0.5`, scores `[10, 90, 50]` and bounds `[40, 100]` it returns
`{confidence: 90, start: 0.5, end: 1.0}` then
`{confidence: 50, start: 1.0, end: 1.5}` (second conjunct). -/
theorem sample_window_query_exact (store : List FileInfos) (fn : String) (mn mx : Int)
    (r : FileInfos) (c : SampleLevelConfidences)
    (hfind : store.find? (fun x => decide (x.filename = some fn)) = some r)
    (hc : r.sample_level_confidences = some c) (_hb : mn ≤ mx) :
    getSampleLevelConfidencesByFilename store fn mn mx
      = .ok ((c.score.enum.filter fun p => decide (mn ≤ p.2) && decide (p.2 ≤ mx)).map
          fun p => ⟨p.2, (p.1 : ℚ) * c.resolution, ((p.1 : ℚ) + 1) * c.resolution⟩)
  ∧ getSampleLevelConfidencesByFilename [sampleDemoRecord] "audio1" 40 100
      = .ok [⟨90, 1/2, 1⟩, ⟨50, 1, 3/2⟩] := by
  constructor
  · simp only [getSampleLevelConfidencesByFilename, hfind, hc]
    rw [sampleWindowRows_eq_enumFrom]
    rfl
  · norm_num [getSampleLevelConfidencesByFilename, sampleDemoRecord,
      sampleWindowRows, List.find?]

/-- Witness for C2, instantiated on a one-record store holding
`sampleDemoRecord`. -/
theorem sample_window_query_exact_witness :
    getSampleLevelConfidencesByFilename [sampleDemoRecord] "audio1" 40 100
      = .ok ((([10, 90, 50] : List Int).enum.filter
            fun p => decide (40 ≤ p.2) && decide (p.2 ≤ 100)).map
          fun p => ⟨p.2, (p.1 : ℚ) * (1/2), ((p.1 : ℚ) + 1) * (1/2)⟩) :=
  (sample_window_query_exact [sampleDemoRecord] "audio1" 40 100 sampleDemoRecord
    ⟨[10, 90, 50], 1/2⟩ (by rfl) rfl (by decide)).1

/-- Claim C3: for every record whose `diarization_result` is present and
bounds `mn ≤ mx`, the turn-level window query returns one
`{start, end, speaker, speaker_confidence}` row for exactly those segments
whose confidence sub-score lies in `[mn, mx]` (inclusive at both ends), and
the returned rows are the projection of a sublist of the stored segments —
the original stored ordering is preserved. -/
theorem turn_window_query_exact (store : List FileInfos) (fn : String) (mn mx : ℚ)
    (r : FileInfos) (segs : List DiarizationSegment)
    (hfind : store.find? (fun x => decide (x.filename = some fn)) = some r)
    (hsegs : r.diarization_result = some segs) (_hb : mn ≤ mx) :
    ((segs.filter fun g => decide (mn ≤ g.confidence.speaker_confidence)
        && decide (g.confidence.speaker_confidence ≤ mx)).Sublist segs)
  ∧ getTurnLevelConfidencesByFilename store fn mn mx
      = .ok ((segs.filter fun g => decide (mn ≤ g.confidence.speaker_confidence)
            && decide (g.confidence.speaker_confidence ≤ mx)).map
          fun g => ⟨g.start, g.«end», g.speaker, g.confidence.speaker_confidence⟩)
  ∧ ∀ g ∈ segs,
      ((g ∈ segs.filter fun g => decide (mn ≤ g.confidence.speaker_confidence)
          && decide (g.confidence.speaker_confidence ≤ mx))
        ↔ mn ≤ g.confidence.speaker_confidence ∧ g.confidence.speaker_confidence ≤ mx) := by
  refine ⟨List.filter_sublist segs, ?_, ?_⟩
  · simp only [getTurnLevelConfidencesByFilename, hfind, hsegs, Option.getD_some]
    rw [filterMap_if_eq_map_filter
      (fun g : DiarizationSegment =>
        mn ≤ g.confidence.speaker_confidence ∧ g.confidence.speaker_confidence ≤ mx)
      (fun g => (⟨g.start, g.«end», g.speaker, g.confidence.speaker_confidence⟩ :
        TurnWindowRow)) segs]
    have hpred : (fun a : DiarizationSegment =>
        decide (mn ≤ a.confidence.speaker_confidence ∧ a.confidence.speaker_confidence ≤ mx))
        = fun g : DiarizationSegment =>
            decide (mn ≤ g.confidence.speaker_confidence)
              && decide (g.confidence.speaker_confidence ≤ mx) := by
      funext g
      by_cases h1 : mn ≤ g.confidence.speaker_confidence <;>
        by_cases h2 : g.confidence.speaker_confidence ≤ mx <;> simp [h1, h2]
    rw [hpred]
  · intro g hg
    simp [List.mem_filter, hg]

/-- Witness for C3: on a one-record store holding `turnDemoRecord`
(sub-scores 30 and 80) the query with bounds `[50, 100]` keeps only the
second stored segment. -/
theorem turn_window_query_exact_witness :
    getTurnLevelConfidencesByFilename [turnDemoRecord] "audio2" 50 100
      = .ok [⟨1, 2, "SPEAKER_01", 80⟩] := by
  have h := (turn_window_query_exact [turnDemoRecord] "audio2" 50 100 turnDemoRecord
    turnDemoSegs rfl rfl (by norm_num)).2.1
  rw [h]
  norm_num [turnDemoSegs, List.filter_cons, List.filter_nil]
